import Mathlib

set_option autoImplicit false

/-!
Shallow embedding of the secure token custody core:
`database.py` (SecureTokenStorage), `database_encrypted.py`
(EnhancedSecureTokenStorage), `api_server.py` (FastAPI access broker)
and `app.py` (PAT generation).

Modelling conventions:
* The PostgreSQL tables are modelled as in-memory lists of rows; SQL
  `WHERE user_id = %s` filters/updates act on every matching row, as they
  do in the source (the `tokens` table has no UNIQUE constraint on
  `user_id`).  Operations are sequential; each store call is a pure
  function of the table state.
* Fernet authenticated encryption (a third-party library primitive) is
  modelled as a ciphertext that records the encrypting key, the payload
  and an integrity bit: decryption succeeds exactly when the ciphertext
  is intact and the key matches, mirroring an authenticated cipher where
  tampering or a wrong key makes decryption fail.
* PyJWT (`jwt.encode` / `jwt.decode`) is modelled by a credential that
  records its claims, its expiry instant and the signing key; `decode`
  checks the signature (key equality) first, then expiry, raising the
  distinct error kinds `ExpiredSignatureError` vs `JWTError` as in the
  library contract used by `verify_jwt_token`.
* Timestamps (`CURRENT_TIMESTAMP`, `datetime.utcnow`) are `Nat` instants
  supplied by the caller.
* SHA-256 (`hash_password`) is an uninterpreted function parameter.
* `secrets.choice` in `generate_pat_token` is modelled as an arbitrary
  stream of indices into the alphabet, so the proved properties hold for
  every possible output of the random source.
-/

/-- Model of a Fernet ciphertext: the key that produced it, the encrypted
payload, and whether the authenticated bytes are still intact (tampering
clears the bit). -/
structure Ciphertext where
  key : Nat
  payload : String
  intact : Bool
deriving DecidableEq, Repr

/-- Row of the `tokens` table (`database.py`, `init_database`). -/
structure TokenRow where
  user_id : String
  encrypted_token : Ciphertext
  generation_method : String
  created_at : Nat
  updated_at : Nat
deriving DecidableEq, Repr

/-- Row of the `users` table (`database.py`, `init_database`). -/
structure UserRow where
  username : String
  password_hash : String
deriving DecidableEq, Repr

/-- Dictionary returned by `SecureTokenStorage.get_token`: the `token`
field is `none` when decryption failed (`decrypt_token` returned `None`). -/
structure TokenRecord where
  token : Option String
  generation_method : String
  created_at : Nat
  updated_at : Nat
deriving DecidableEq, Repr

/-- Number of rows of the `tokens` table belonging to a user; the
0-or-1-records-per-user invariant says this is at most 1. -/
def countFor (db : List TokenRow) (u : String) : Nat :=
  db.countP (fun r => r.user_id == u)

namespace Database

/-- `SecureTokenStorage.encrypt_token`: Fernet encryption of the plaintext
under the storage key. -/
def encrypt_token (key : Nat) (token : String) : Ciphertext :=
  ⟨key, token, true⟩

/-- `SecureTokenStorage.decrypt_token`: Fernet decryption; on any failure
(tampered bytes or wrong key) the exception is swallowed and `None` is
returned. -/
def decrypt_token (key : Nat) (c : Ciphertext) : Option String :=
  if c.intact && (c.key == key) then some c.payload else none

/-- `SecureTokenStorage.save_token`: encrypts, then checks `SELECT id FROM
tokens WHERE user_id = %s`; if a row exists it runs the UPDATE (which
rewrites ciphertext, method and `updated_at` on every matching row),
otherwise it INSERTs a fresh row with `created_at = updated_at = now`. -/
def save_token (key now : Nat) (db : List TokenRow) (user_id token method : String) :
    List TokenRow :=
  let enc := encrypt_token key token
  if db.any (fun r => r.user_id == user_id) then
    db.map (fun r =>
      if r.user_id == user_id then
        { r with encrypted_token := enc, generation_method := method, updated_at := now }
      else r)
  else
    db ++ [⟨user_id, enc, method, now, now⟩]

/-- `SecureTokenStorage.get_token`: fetches the first row for the user,
decrypts it, and returns the record dictionary; `None` when no row exists.
A decrypt failure still returns the dictionary, with `token = None`. -/
def get_token (key : Nat) (db : List TokenRow) (user_id : String) : Option TokenRecord :=
  match db.find? (fun r => r.user_id == user_id) with
  | some r =>
      some ⟨decrypt_token key r.encrypted_token, r.generation_method,
            r.created_at, r.updated_at⟩
  | none => none

/-- `SecureTokenStorage.delete_token`: `DELETE FROM tokens WHERE user_id = %s`;
returns `rowcount > 0` together with the resulting table. -/
def delete_token (db : List TokenRow) (user_id : String) : Bool × List TokenRow :=
  let db2 := db.filter (fun r => !(r.user_id == user_id))
  (decide (db2.length < db.length), db2)

/-- `SecureTokenStorage.verify_user`: `SELECT id FROM users WHERE username = %s
AND password_hash = %s`, returning whether a row matched. -/
def verify_user (users : List UserRow) (username password_hash : String) : Bool :=
  users.any (fun r => r.username == username && r.password_hash == password_hash)

end Database

namespace DatabaseEncrypted

/-- `EnhancedSecureTokenStorage.get_token` on the Fernet-only path (the
path taken when `use_postgres_encryption` is false, or when a row's
`encrypted_token_pgp` column is empty so `result['encrypted_token']` is
used directly): fetch the row, Fernet-decrypt, and return the record only
`if decrypted_token:` is truthy — a decrypt failure (`None`) or an empty
plaintext falls through to `return None`, the same value as for a missing
row. -/
def get_token (key : Nat) (db : List TokenRow) (user_id : String) : Option TokenRecord :=
  match db.find? (fun r => r.user_id == user_id) with
  | some r =>
      match Database.decrypt_token key r.encrypted_token with
      | some pt =>
          if pt == "" then none
          else some ⟨some pt, r.generation_method, r.created_at, r.updated_at⟩
      | none => none
  | none => none

end DatabaseEncrypted

/-- Result of an HTTP handler: a successful value, or an `HTTPException`
with status code and detail string. -/
inductive ApiResult (α : Type) where
  | ok : α → ApiResult α
  | error : Nat → String → ApiResult α
deriving DecidableEq, Repr

/-- JSON value appearing in the `token_status` response dictionary. -/
inductive JVal where
  | b : Bool → JVal
  | s : String → JVal
  | n : Nat → JVal
deriving DecidableEq, Repr

/-- Model of a JWT bearer credential: its claim set, its `exp` instant and
the key it was signed with (signature verification = key equality). -/
structure Jwt where
  claims : List (String × String)
  exp : Nat
  sigKey : Nat
deriving DecidableEq, Repr

/-- Distinct JWT failure kinds raised by `jwt.decode`:
`ExpiredSignatureError` vs the generic invalid-token error. -/
inductive JwtError where
  | expired
  | invalid
deriving DecidableEq, Repr

namespace ApiServer

/-- `JWT_EXPIRY_HOURS` constant of `api_server.py`. -/
def JWT_EXPIRY_HOURS : Nat := 24

/-- `AuthResponse` pydantic model. -/
structure AuthResponse where
  access_token : Jwt
  token_type : String
  expires_in : Nat
deriving DecidableEq, Repr

/-- `TokenResponse` pydantic model; `token` is an `Option` because
`token_data['token']` is `None` when decryption failed. -/
structure TokenResponse where
  token : Option String
  generation_method : String
  created_at : Nat
  accessed_at : Nat
deriving DecidableEq, Repr

/-- `create_jwt_token({"sub": username}, 24h)`: claims carry the subject,
`exp` is now plus the TTL, and the credential is signed with `JWT_SECRET`. -/
def create_jwt_token (key now : Nat) (sub : String) : Jwt :=
  ⟨[("sub", sub)], now + JWT_EXPIRY_HOURS * 3600, key⟩

/-- `jwt.decode(token, JWT_SECRET, algorithms=[HS256])`: signature check
first (wrong key ⇒ invalid), then expiry check (`exp` not in the future ⇒
`ExpiredSignatureError`), else the payload is returned. -/
def jwt_decode (key now : Nat) (t : Jwt) : Except JwtError (List (String × String)) :=
  if t.sigKey ≠ key then .error .invalid
  else if t.exp ≤ now then .error .expired
  else .ok t.claims

/-- `verify_jwt_token`: maps `ExpiredSignatureError` to 401 "Token has
expired" and any other JWT error to 401 "Invalid token". -/
def verify_jwt_token (key now : Nat) (t : Jwt) : ApiResult (List (String × String)) :=
  match jwt_decode key now t with
  | .ok payload => .ok payload
  | .error .expired => .error 401 "Token has expired"
  | .error .invalid => .error 401 "Invalid token"

/-- `payload.get("sub")`: first value bound to the claim name, if any. -/
def payload_get (claims : List (String × String)) (k : String) : Option String :=
  (claims.find? (fun c => c.1 == k)).map Prod.snd

/-- `get_current_user`: verify the bearer credential, then require a
`sub` claim; a subject-less payload is 401 "Invalid authentication
credentials". -/
def get_current_user (key now : Nat) (t : Jwt) : ApiResult String :=
  match verify_jwt_token key now t with
  | .error s d => .error s d
  | .ok payload =>
      match payload_get payload "sub" with
      | none => .error 401 "Invalid authentication credentials"
      | some username => .ok username

/-- `login` endpoint: hash the supplied password (`hashFn` models
`hash_password`, i.e. SHA-256), call `verify_user`, and either raise
401 "Invalid username or password" or issue the JWT response. -/
def login (hashFn : String → String) (key now : Nat) (users : List UserRow)
    (username password : String) : ApiResult AuthResponse :=
  if Database.verify_user users username (hashFn password) then
    .ok ⟨create_jwt_token key now username, "bearer", JWT_EXPIRY_HOURS * 3600⟩
  else
    .error 401 "Invalid username or password"

/-- `access_token` endpoint (`POST /tokens/access`), given the already
resolved `current_user` (FastAPI `Depends(get_current_user)`): the
ownership check runs before any store access.  The second component lists
the user ids the handler queried in the credential store, so `[]` means
the store was never consulted. -/
def access_token (key : Nat) (db : List TokenRow) (current_user user_id : String)
    (now : Nat) : ApiResult TokenResponse × List String :=
  if current_user ≠ user_id then
    (.error 403 "Access denied to this token", [])
  else
    match Database.get_token key db user_id with
    | none => (.error 404 "Token not found for this user", [user_id])
    | some d => (.ok ⟨d.token, d.generation_method, d.created_at, now⟩, [user_id])

/-- `token_status` endpoint (`GET /tokens/status/[user_id]`): ownership
check, then a metadata-only JSON dictionary; the second component is the
list of store queries performed. -/
def token_status (key : Nat) (db : List TokenRow) (current_user user_id : String) :
    ApiResult (List (String × JVal)) × List String :=
  if current_user ≠ user_id then
    (.error 403 "Access denied", [])
  else
    match Database.get_token key db user_id with
    | some d =>
        (.ok [("has_token", .b true),
              ("generation_method", .s d.generation_method),
              ("created_at", .n d.created_at),
              ("updated_at", .n d.updated_at)], [user_id])
    | none => (.ok [("has_token", .b false)], [user_id])

/-- `delete_token` endpoint (`DELETE /tokens/[user_id]`): ownership check,
then the store delete; `success = False` maps to 404 "Token not found".
Returns the response, the resulting table, and the store queries made. -/
def delete_token_endpoint (db : List TokenRow) (current_user user_id : String) :
    ApiResult String × List TokenRow × List String :=
  if current_user ≠ user_id then
    (.error 403 "Access denied", db, [])
  else
    let r := Database.delete_token db user_id
    if r.1 then (.ok "Token deleted successfully", r.2, [user_id])
    else (.error 404 "Token not found", r.2, [user_id])

end ApiServer

namespace App

/-- `string.ascii_letters` from the Python standard library. -/
def ascii_letters : String :=
  "abcdefghijklmnopqrstuvwxyzABCDEFGHIJKLMNOPQRSTUVWXYZ"

/-- `string.digits` from the Python standard library. -/
def digits : String :=
  "0123456789"

/-- `alphabet = string.ascii_letters + string.digits` in
`generate_pat_token`. -/
def alphabet : List Char :=
  (ascii_letters ++ digits).data

/-- `generate_pat_token`: 32 draws of `secrets.choice(alphabet)`; the
random source is modelled as an arbitrary stream `choice` of in-range
indices, so every theorem below holds whatever the source outputs. -/
def generate_pat_token (choice : Nat → Fin alphabet.length) : String :=
  ⟨(List.range 32).map (fun i => alphabet.get (choice i))⟩

end App

/-- C1: for every operation on a token (access, status, delete) where the
authenticated session subject differs from the requested `user_id`, the
broker returns 403 Forbidden without consulting the credential store
(empty store-access log, table unchanged), independent of the table's
contents, and never returns the target's data. -/
theorem C1_cross_user_forbidden (key : Nat) (db : List TokenRow)
    (current_user user_id : String) (now : Nat) (h : current_user ≠ user_id) :
    ApiServer.access_token key db current_user user_id now =
      (ApiResult.error 403 "Access denied to this token", []) ∧
    ApiServer.token_status key db current_user user_id =
      (ApiResult.error 403 "Access denied", []) ∧
    ApiServer.delete_token_endpoint db current_user user_id =
      (ApiResult.error 403 "Access denied", db, []) := by
  refine ⟨?_, ?_, ?_⟩ <;>
    simp [ApiServer.access_token, ApiServer.token_status,
      ApiServer.delete_token_endpoint, h]

/-- Witness for C1 at a concrete state in which the target user does hold
a token, so the Forbidden answer demonstrably leaks nothing. -/
theorem C1_cross_user_forbidden_witness :
    ("alice" : String) ≠ "bob" ∧
    (ApiServer.access_token 0 [⟨"bob", ⟨0, "sec", true⟩, "manual", 1, 1⟩]
        "alice" "bob" 5 =
      (ApiResult.error 403 "Access denied to this token", []) ∧
    ApiServer.token_status 0 [⟨"bob", ⟨0, "sec", true⟩, "manual", 1, 1⟩]
        "alice" "bob" =
      (ApiResult.error 403 "Access denied", []) ∧
    ApiServer.delete_token_endpoint [⟨"bob", ⟨0, "sec", true⟩, "manual", 1, 1⟩]
        "alice" "bob" =
      (ApiResult.error 403 "Access denied",
        [⟨"bob", ⟨0, "sec", true⟩, "manual", 1, 1⟩], [])) :=
  ⟨by decide,
   C1_cross_user_forbidden 0 [⟨"bob", ⟨0, "sec", true⟩, "manual", 1, 1⟩]
     "alice" "bob" 5 (by decide)⟩

/-- C4: every successful `token_status` response carries only the metadata
keys `has_token`, `generation_method`, `created_at`, `updated_at`; the
`token` field is never present, whether or not a record exists and
whatever the generation method. -/
theorem C4_status_has_no_plaintext_field (key : Nat) (db : List TokenRow)
    (current_user user_id : String) (resp : List (String × JVal)) (log : List String)
    (h : ApiServer.token_status key db current_user user_id = (ApiResult.ok resp, log)) :
    "token" ∉ resp.map Prod.fst ∧
    ∀ k ∈ resp.map Prod.fst,
      k ∈ ["has_token", "generation_method", "created_at", "updated_at"] := by
  unfold ApiServer.token_status at h
  split at h
  · simp at h
  · split at h <;>
      simp only [Prod.mk.injEq, ApiResult.ok.injEq] at h <;>
      rcases h with ⟨h1, -⟩ <;> subst h1 <;> simp

/-- Witness for C4 on a state holding a record for the caller. -/
theorem C4_status_has_no_plaintext_field_witness :
    ApiServer.token_status 0 [⟨"alice", ⟨0, "sec", true⟩, "auto", 1, 2⟩]
        "alice" "alice" =
      (ApiResult.ok [("has_token", JVal.b true), ("generation_method", JVal.s "auto"),
        ("created_at", JVal.n 1), ("updated_at", JVal.n 2)], ["alice"]) ∧
    ("token" ∉
        ([("has_token", JVal.b true), ("generation_method", JVal.s "auto"),
          ("created_at", JVal.n 1), ("updated_at", JVal.n 2)].map Prod.fst) ∧
      ∀ k ∈ [("has_token", JVal.b true), ("generation_method", JVal.s "auto"),
          ("created_at", JVal.n 1), ("updated_at", JVal.n 2)].map Prod.fst,
        k ∈ ["has_token", "generation_method", "created_at", "updated_at"]) :=
  ⟨by decide,
   C4_status_has_no_plaintext_field 0
     [⟨"alice", ⟨0, "sec", true⟩, "auto", 1, 2⟩] "alice" "alice"
     [("has_token", JVal.b true), ("generation_method", JVal.s "auto"),
       ("created_at", JVal.n 1), ("updated_at", JVal.n 2)] ["alice"] (by decide)⟩

/-- C6: a session credential whose `exp` lies in the past is rejected by
verification even when its signature is valid, with the `Expired` kind;
a credential with a bad signature fails with the distinct `Invalid` kind;
both map externally to a 401 unauthenticated response. -/
theorem C6_expired_distinct_from_invalid (key now : Nat) (t t2 : Jwt)
    (hsig : t.sigKey = key) (hexp : t.exp < now) (hs2 : t2.sigKey ≠ key) :
    ApiServer.jwt_decode key now t = Except.error JwtError.expired ∧
    ApiServer.verify_jwt_token key now t = ApiResult.error 401 "Token has expired" ∧
    ApiServer.jwt_decode key now t2 = Except.error JwtError.invalid ∧
    ApiServer.verify_jwt_token key now t2 = ApiResult.error 401 "Invalid token" ∧
    JwtError.expired ≠ JwtError.invalid := by
  have h1 : ApiServer.jwt_decode key now t = Except.error JwtError.expired := by
    simp [ApiServer.jwt_decode, hsig, Nat.le_of_lt hexp]
  have h2 : ApiServer.jwt_decode key now t2 = Except.error JwtError.invalid := by
    simp [ApiServer.jwt_decode, hs2]
  refine ⟨h1, ?_, h2, ?_, by decide⟩ <;>
    simp [ApiServer.verify_jwt_token, h1, h2]

/-- Witness for C6: a validly signed credential that expired at instant 3,
checked at instant 5, and a forged credential signed with key 7. -/
theorem C6_expired_distinct_from_invalid_witness :
    (Jwt.mk [("sub", "alice")] 3 0).sigKey = 0 ∧
    (Jwt.mk [("sub", "alice")] 3 0).exp < 5 ∧
    (Jwt.mk [("sub", "alice")] 10 7).sigKey ≠ 0 ∧
    (ApiServer.jwt_decode 0 5 (Jwt.mk [("sub", "alice")] 3 0) =
        Except.error JwtError.expired ∧
      ApiServer.verify_jwt_token 0 5 (Jwt.mk [("sub", "alice")] 3 0) =
        ApiResult.error 401 "Token has expired" ∧
      ApiServer.jwt_decode 0 5 (Jwt.mk [("sub", "alice")] 10 7) =
        Except.error JwtError.invalid ∧
      ApiServer.verify_jwt_token 0 5 (Jwt.mk [("sub", "alice")] 10 7) =
        ApiResult.error 401 "Invalid token" ∧
      JwtError.expired ≠ JwtError.invalid) :=
  ⟨rfl, by decide, by decide,
   C6_expired_distinct_from_invalid 0 5 (Jwt.mk [("sub", "alice")] 3 0)
     (Jwt.mk [("sub", "alice")] 10 7) rfl (by decide) (by decide)⟩

/-- C10: a bearer credential with a valid signature and a future expiry
whose payload carries no `sub` claim is rejected with 401, and no
authenticated identity is ever derived from it. -/
theorem C10_subjectless_credential_rejected (key now : Nat) (t : Jwt)
    (hsig : t.sigKey = key) (hexp : now < t.exp)
    (hsub : ApiServer.payload_get t.claims "sub" = none) :
    ApiServer.get_current_user key now t =
      ApiResult.error 401 "Invalid authentication credentials" ∧
    ∀ u : String, ApiServer.get_current_user key now t ≠ ApiResult.ok u := by
  have hd : ApiServer.jwt_decode key now t = Except.ok t.claims := by
    simp [ApiServer.jwt_decode, hsig, Nat.not_le.mpr hexp]
  have h1 : ApiServer.get_current_user key now t =
      ApiResult.error 401 "Invalid authentication credentials" := by
    simp [ApiServer.get_current_user, ApiServer.verify_jwt_token, hd, hsub]
  exact ⟨h1, fun u hu => by rw [h1] at hu; exact ApiResult.noConfusion hu⟩

/-- Witness for C10: an unexpired, validly signed credential whose claims
mention no subject. -/
theorem C10_subjectless_credential_rejected_witness :
    (Jwt.mk [("name", "x")] 10 0).sigKey = 0 ∧
    (3 : Nat) < (Jwt.mk [("name", "x")] 10 0).exp ∧
    ApiServer.payload_get (Jwt.mk [("name", "x")] 10 0).claims "sub" = none ∧
    (ApiServer.get_current_user 0 3 (Jwt.mk [("name", "x")] 10 0) =
        ApiResult.error 401 "Invalid authentication credentials" ∧
      ∀ u : String,
        ApiServer.get_current_user 0 3 (Jwt.mk [("name", "x")] 10 0) ≠
          ApiResult.ok u) :=
  ⟨rfl, by decide, by decide,
   C10_subjectless_credential_rejected 0 3 (Jwt.mk [("name", "x")] 10 0)
     rfl (by decide) (by decide)⟩

lemma countP_map_pres {α : Type} (f : α → α) (p : α → Bool)
    (hp : ∀ a, p (f a) = p a) (l : List α) :
    (l.map f).countP p = l.countP p := by
  induction l with
  | nil => rfl
  | cons a t ih => simp [List.countP_cons, hp, ih]

lemma filter_map_comm {α : Type} (f : α → α) (p : α → Bool)
    (hp : ∀ a, p (f a) = p a) (l : List α) :
    (l.map f).filter p = (l.filter p).map f := by
  induction l with
  | nil => rfl
  | cons a t ih => cases h : p a <;> simp [List.filter_cons, hp, h, ih]

lemma countP_filter_le {α : Type} (p q : α → Bool) (l : List α) :
    (l.filter q).countP p ≤ l.countP p := by
  induction l with
  | nil => simp
  | cons a t ih =>
    cases hq : q a <;> simp only [List.filter_cons, hq, if_true, if_false, List.countP_cons] <;>
      by_cases hp : p a = true <;> simp [hp] <;> omega

lemma find?_append_none {α : Type} (p : α → Bool) (l1 l2 : List α)
    (h : l1.find? p = none) :
    (l1 ++ l2).find? p = l2.find? p := by
  induction l1 with
  | nil => rfl
  | cons a t ih =>
    cases hp : p a
    · rw [List.cons_append, List.find?_cons_of_neg _ (by simp [hp]),
        ih (by rwa [List.find?_cons_of_neg _ (by simp [hp])] at h)]
    · rw [List.find?_cons_of_pos _ hp] at h
      exact absurd h (by simp)

lemma save_token_any_false (key now : Nat) (db : List TokenRow) (u tok m : String)
    (h : db.any (fun r => r.user_id == u) = false) :
    Database.save_token key now db u tok m =
      db ++ [⟨u, Database.encrypt_token key tok, m, now, now⟩] := by
  simp [Database.save_token, h]

lemma save_token_any_true (key now : Nat) (db : List TokenRow) (u tok m : String)
    (h : db.any (fun r => r.user_id == u) = true) :
    Database.save_token key now db u tok m =
      db.map (fun r =>
        if r.user_id == u then
          { r with encrypted_token := Database.encrypt_token key tok,
                   generation_method := m, updated_at := now }
        else r) := by
  simp [Database.save_token, h]

lemma find?_eq_none_of_any_false {α : Type} (p : α → Bool) (l : List α)
    (h : l.any p = false) : l.find? p = none := by
  rw [List.find?_eq_none]
  intro x hx
  rw [List.any_eq_false] at h
  exact h x hx

lemma save_token_find (key now : Nat) (db : List TokenRow) (u tok m : String) :
    ∃ c1 c2, (Database.save_token key now db u tok m).find? (fun r => r.user_id == u) =
      some ⟨u, Database.encrypt_token key tok, m, c1, c2⟩ := by
  cases hany : db.any (fun r => r.user_id == u)
  · refine ⟨now, now, ?_⟩
    rw [save_token_any_false key now db u tok m hany,
      find?_append_none _ _ _ (find?_eq_none_of_any_false _ _ hany)]
    simp [List.find?_cons]
  · have hsome : (db.find? (fun r => r.user_id == u)).isSome := by
      rw [List.find?_isSome]
      exact List.any_eq_true.mp hany
    obtain ⟨r, hr⟩ := Option.isSome_iff_exists.mp hsome
    have hru : r.user_id = u := by simpa using List.find?_some hr
    refine ⟨r.created_at, now, ?_⟩
    rw [save_token_any_true key now db u tok m hany, List.find?_map]
    have hcomp : ((fun r : TokenRow => r.user_id == u) ∘ fun r : TokenRow =>
        if r.user_id == u then
          { r with encrypted_token := Database.encrypt_token key tok,
                   generation_method := m, updated_at := now }
        else r) = (fun r : TokenRow => r.user_id == u) := by
      funext a
      by_cases ha : (a.user_id == u) = true <;> simp [Function.comp, ha]
    rw [hcomp, hr]
    simp [hru]

/-- C2: saving a token for a user and then reading it back returns a record
whose `token` field is the original plaintext (encrypt then decrypt under
the same key is the identity), with the saved generation method, for every
prior table state. -/
theorem C2_save_get_roundtrip (key now : Nat) (db : List TokenRow) (u tok m : String) :
    ∃ created updated,
      Database.get_token key (Database.save_token key now db u tok m) u =
        some ⟨some tok, m, created, updated⟩ := by
  obtain ⟨c1, c2, hfind⟩ := save_token_find key now db u tok m
  refine ⟨c1, c2, ?_⟩
  rw [Database.get_token, hfind]
  simp [Database.decrypt_token, Database.encrypt_token]

lemma countFor_save_le (key t : Nat) (db : List TokenRow) (u2 tk mm v : String)
    (hv : countFor db v ≤ 1) :
    countFor (Database.save_token key t db u2 tk mm) v ≤ 1 := by
  cases hany : db.any (fun r => r.user_id == u2)
  · rw [save_token_any_false _ _ _ _ _ _ hany]
    simp only [countFor, List.countP_append] at hv ⊢
    by_cases hu : u2 = v
    · subst hu
      have h0 : db.countP (fun r => r.user_id == u2) = 0 := by
        rw [List.countP_eq_zero]
        exact fun a ha => List.any_eq_false.mp hany a ha
      simp [h0, List.countP_cons]
    · simpa [List.countP_cons, beq_iff_eq, hu] using hv
  · rw [save_token_any_true _ _ _ _ _ _ hany]
    rw [countFor, countP_map_pres]
    · exact hv
    · intro a
      by_cases ha : (a.user_id == u2) = true <;> simp [ha]

lemma countFor_delete_le (db : List TokenRow) (u2 v : String)
    (hv : countFor db v ≤ 1) :
    countFor (Database.delete_token db u2).2 v ≤ 1 := by
  simp only [Database.delete_token, countFor] at hv ⊢
  exact le_trans (countP_filter_le _ _ _) hv

lemma save_twice_filter (key t1 t2 : Nat) (db : List TokenRow)
    (u tok1 tok2 m1 m2 : String) (h0 : countFor db u = 0) :
    (Database.save_token key t2 (Database.save_token key t1 db u tok1 m1)
        u tok2 m2).filter (fun r => r.user_id == u) =
      [⟨u, Database.encrypt_token key tok2, m2, t1, t2⟩] := by
  rw [countFor, List.countP_eq_zero] at h0
  have hany1 : db.any (fun r => r.user_id == u) = false := List.any_eq_false.mpr h0
  rw [save_token_any_false _ _ _ _ _ _ hany1]
  have hany2 : (db ++ [(⟨u, Database.encrypt_token key tok1, m1, t1, t1⟩ : TokenRow)]).any
      (fun r => r.user_id == u) = true := by
    rw [List.any_eq_true]
    exact ⟨⟨u, Database.encrypt_token key tok1, m1, t1, t1⟩, by simp, by simp⟩
  rw [save_token_any_true _ _ _ _ _ _ hany2]
  rw [filter_map_comm]
  · rw [List.filter_append, List.filter_eq_nil_iff.mpr h0]
    simp
  · intro a
    by_cases ha : (a.user_id == u) = true <;> simp [ha]

/-- C3: `save_token` is an upsert.  Saving twice in sequence for the same
user (starting from a state holding no record for that user) leaves
exactly one stored record for the user, carrying the latest ciphertext and
generation method, with `created_at` stamped at the first save and
`updated_at` at the second, so `updated_at ≥ created_at`; and both
`save_token` and `delete_token` preserve the 0-or-1-records-per-user
invariant for every user (`get_token` does not modify the table at all in
the embedding, being a pure function of it). -/
theorem C3_upsert_one_record_invariant (key t1 t2 t : Nat) (db : List TokenRow)
    (u tok1 tok2 m1 m2 v u2 tk mm : String)
    (h0 : countFor db u = 0) (ht : t1 ≤ t2) (hv : countFor db v ≤ 1) :
    ((Database.save_token key t2 (Database.save_token key t1 db u tok1 m1)
        u tok2 m2).filter (fun r => r.user_id == u) =
      [⟨u, Database.encrypt_token key tok2, m2, t1, t2⟩]) ∧
    countFor (Database.save_token key t2 (Database.save_token key t1 db u tok1 m1)
        u tok2 m2) u = 1 ∧
    t1 ≤ t2 ∧
    countFor (Database.save_token key t db u2 tk mm) v ≤ 1 ∧
    countFor (Database.delete_token db u2).2 v ≤ 1 := by
  refine ⟨save_twice_filter key t1 t2 db u tok1 tok2 m1 m2 h0, ?_, ht,
    countFor_save_le key t db u2 tk mm v hv, countFor_delete_le db u2 v hv⟩
  rw [countFor, List.countP_eq_length_filter,
    save_twice_filter key t1 t2 db u tok1 tok2 m1 m2 h0]
  rfl

/-- Witness for C3 starting from the empty table. -/
theorem C3_upsert_one_record_invariant_witness :
    (countFor [] "alice" = 0 ∧ (1 : Nat) ≤ 2 ∧ countFor [] "alice" ≤ 1) ∧
    (((Database.save_token 0 2 (Database.save_token 0 1 [] "alice" "a" "manual")
        "alice" "b" "auto").filter (fun r => r.user_id == "alice") =
      [⟨"alice", Database.encrypt_token 0 "b", "auto", 1, 2⟩]) ∧
    countFor (Database.save_token 0 2 (Database.save_token 0 1 [] "alice" "a" "manual")
        "alice" "b" "auto") "alice" = 1 ∧
    (1 : Nat) ≤ 2 ∧
    countFor (Database.save_token 0 3 [] "bob" "c" "auto") "alice" ≤ 1 ∧
    countFor (Database.delete_token [] "bob").2 "alice" ≤ 1) :=
  ⟨⟨rfl, by decide, by decide⟩,
   C3_upsert_one_record_invariant 0 1 2 3 [] "alice" "a" "b" "manual" "auto"
     "alice" "bob" "c" "auto" rfl (by decide) (by decide)⟩

lemma filter_ne_eq_self (db : List TokenRow) (u : String) (h : countFor db u = 0) :
    db.filter (fun r => !(r.user_id == u)) = db := by
  rw [List.filter_eq_self]
  rw [countFor, List.countP_eq_zero] at h
  intro a ha
  cases hb : (a.user_id == u)
  · simp
  · exact absurd hb (h a ha)

lemma delete_token_not_found (db : List TokenRow) (u : String) (h : countFor db u = 0) :
    Database.delete_token db u = (false, db) := by
  simp [Database.delete_token, filter_ne_eq_self db u h]

lemma countFor_delete_self (db : List TokenRow) (u : String) :
    countFor (Database.delete_token db u).2 u = 0 := by
  simp only [Database.delete_token, countFor]
  rw [List.countP_eq_zero]
  intro a ha
  rw [List.mem_filter] at ha
  simpa using ha.2

/-- C8: deleting when no record exists reports not-found rather than an
error — the store-level delete returns `false` with the table unchanged
and the broker maps it to 404 — and delete is idempotent: after any
delete, a second delete for the same user also returns `false` / 404 and
never throws. -/
theorem C8_delete_idempotent_not_found (db db2 : List TokenRow) (u cu : String)
    (h0 : countFor db u = 0) (hcu : cu = u) :
    Database.delete_token db u = (false, db) ∧
    Database.delete_token (Database.delete_token db2 u).2 u =
      (false, (Database.delete_token db2 u).2) ∧
    ApiServer.delete_token_endpoint db cu u =
      (ApiResult.error 404 "Token not found", db, [u]) ∧
    ApiServer.delete_token_endpoint (Database.delete_token db2 u).2 u u =
      (ApiResult.error 404 "Token not found", (Database.delete_token db2 u).2, [u]) := by
  have h1 := delete_token_not_found db u h0
  have h2 := delete_token_not_found _ u (countFor_delete_self db2 u)
  subst hcu
  refine ⟨h1, h2, ?_, ?_⟩ <;>
    simp [ApiServer.delete_token_endpoint, h1, h2]

/-- Witness for C8: an empty table, and a table where alice does hold a
token that the first delete removes. -/
theorem C8_delete_idempotent_not_found_witness :
    (countFor [] "alice" = 0 ∧ ("alice" : String) = "alice") ∧
    (Database.delete_token [] "alice" = (false, []) ∧
    Database.delete_token
        (Database.delete_token [⟨"alice", ⟨0, "sec", true⟩, "auto", 1, 1⟩] "alice").2
        "alice" =
      (false,
        (Database.delete_token [⟨"alice", ⟨0, "sec", true⟩, "auto", 1, 1⟩] "alice").2) ∧
    ApiServer.delete_token_endpoint [] "alice" "alice" =
      (ApiResult.error 404 "Token not found", [], ["alice"]) ∧
    ApiServer.delete_token_endpoint
        (Database.delete_token [⟨"alice", ⟨0, "sec", true⟩, "auto", 1, 1⟩] "alice").2
        "alice" "alice" =
      (ApiResult.error 404 "Token not found",
        (Database.delete_token [⟨"alice", ⟨0, "sec", true⟩, "auto", 1, 1⟩] "alice").2,
        ["alice"])) :=
  ⟨⟨rfl, rfl⟩,
   C8_delete_idempotent_not_found []
     [⟨"alice", ⟨0, "sec", true⟩, "auto", 1, 1⟩] "alice" "alice" rfl rfl⟩

/-- C7: a failed login returns the identical
401 "Invalid username or password" response whether the username does not
exist at all or the username exists with a different password hash, for
every password-hashing function — two runs differing only in which
condition caused the failure are indistinguishable (no username
enumeration). -/
theorem C7_login_no_username_enumeration (hashFn : String → String)
    (users1 users2 : List UserRow) (u p : String) (key now : Nat)
    (h1 : ∀ r ∈ users1, r.username ≠ u)
    (_h2 : ∃ r ∈ users2, r.username = u)
    (h3 : ∀ r ∈ users2, r.username = u → r.password_hash ≠ hashFn p) :
    ApiServer.login hashFn key now users1 u p =
      ApiServer.login hashFn key now users2 u p ∧
    ApiServer.login hashFn key now users1 u p =
      ApiResult.error 401 "Invalid username or password" := by
  have hv1 : Database.verify_user users1 u (hashFn p) = false := by
    rw [Database.verify_user, List.any_eq_false]
    intro r hr
    simp [beq_iff_eq, h1 r hr]
  have hv2 : Database.verify_user users2 u (hashFn p) = false := by
    rw [Database.verify_user, List.any_eq_false]
    intro r hr
    by_cases hru : r.username = u
    · simp [beq_iff_eq, hru, h3 r hr hru]
    · simp [beq_iff_eq, hru]
  constructor <;> simp [ApiServer.login, hv1, hv2]

/-- Witness for C7: an empty user table versus a table holding alice with
a different stored hash, probed with the identity hash function. -/
theorem C7_login_no_username_enumeration_witness :
    ((∀ r ∈ ([] : List UserRow), r.username ≠ "alice") ∧
      (∃ r ∈ [(⟨"alice", "otherhash"⟩ : UserRow)], r.username = "alice") ∧
      (∀ r ∈ [(⟨"alice", "otherhash"⟩ : UserRow)],
        r.username = "alice" → r.password_hash ≠ (fun s => s) "pw")) ∧
    (ApiServer.login (fun s => s) 0 0 [] "alice" "pw" =
      ApiServer.login (fun s => s) 0 0 [⟨"alice", "otherhash"⟩] "alice" "pw" ∧
    ApiServer.login (fun s => s) 0 0 [] "alice" "pw" =
      ApiResult.error 401 "Invalid username or password") :=
  ⟨⟨by decide, by decide, by decide⟩,
   C7_login_no_username_enumeration (fun s => s) [] [⟨"alice", "otherhash"⟩]
     "alice" "pw" 0 0 (by decide) (by decide) (by decide)⟩

/-- C9: every auto-generated PAT token is exactly 32 characters long and
every character comes from the mixed alphanumeric alphabet
`string.ascii_letters + string.digits`, for every possible output of the
random source (the source in the code is `secrets.choice`, a
cryptographically secure generator, modelled here as the arbitrary stream
`choice`); moreover every alphabet character is an ASCII letter or digit. -/
theorem C9_generated_token_32_alphanumeric (choice : Nat → Fin App.alphabet.length) :
    (App.generate_pat_token choice).length = 32 ∧
    (∀ c ∈ (App.generate_pat_token choice).data, c ∈ App.alphabet) ∧
    (∀ c ∈ App.alphabet, c.isAlpha = true ∨ c.isDigit = true) := by
  refine ⟨?_, ?_, by decide⟩
  · simp [App.generate_pat_token, String.length]
  · intro c hc
    simp only [App.generate_pat_token, List.mem_map] at hc
    obtain ⟨i, -, hceq⟩ := hc
    exact hceq ▸ List.get_mem App.alphabet (choice i).1 (choice i).2

/-- Counterexample to C5: a stored record whose ciphertext was produced
under key 1 but is read with store key 0 (wrong key, so Fernet decryption
fails).  `EnhancedSecureTokenStorage.get_token` returns `none`, exactly
the value it returns for a user with no record at all — no distinct
`CorruptedRecord` error exists — and the base `SecureTokenStorage.get_token`
returns a plain record with `token = None` rather than a distinct error. -/
theorem C5_counterexample_no_corrupted_record_error :
    DatabaseEncrypted.get_token 0
        [⟨"alice", ⟨1, "tok", true⟩, "manual", 3, 4⟩] "alice" = none ∧
    DatabaseEncrypted.get_token 0 [] "alice" = none ∧
    Database.get_token 0 [⟨"alice", ⟨1, "tok", true⟩, "manual", 3, 4⟩] "alice" =
      some ⟨none, "manual", 3, 4⟩ := by
  refine ⟨?_, rfl, ?_⟩ <;> decide

/-- C5 as amended: for every stored record whose ciphertext cannot be
decrypted, no distinct `CorruptedRecord` error is surfaced: the base
store's `get_token` returns the record dictionary with `token = None`
(the decrypt exception is swallowed), and the encrypted store's
`get_token` returns `None`, indistinguishable from the not-found result
for a user with no record. -/
theorem C5_amended_decrypt_failure_conflated (key : Nat) (c : Ciphertext)
    (u m : String) (t1 t2 : Nat) (hc : Database.decrypt_token key c = none) :
    Database.get_token key [⟨u, c, m, t1, t2⟩] u = some ⟨none, m, t1, t2⟩ ∧
    DatabaseEncrypted.get_token key [⟨u, c, m, t1, t2⟩] u = none ∧
    DatabaseEncrypted.get_token key [] u = none := by
  have hfind : ([(⟨u, c, m, t1, t2⟩ : TokenRow)]).find? (fun r => r.user_id == u) =
      some ⟨u, c, m, t1, t2⟩ := by
    simp [List.find?_cons]
  refine ⟨?_, ?_, rfl⟩ <;>
    simp [Database.get_token, DatabaseEncrypted.get_token, hfind, hc]

/-- Witness for the amended C5 at a concrete wrong-key ciphertext. -/
theorem C5_amended_decrypt_failure_conflated_witness :
    Database.decrypt_token 0 ⟨1, "tok", true⟩ = none ∧
    (Database.get_token 0 [⟨"bob", ⟨1, "tok", true⟩, "manual", 3, 4⟩] "bob" =
      some ⟨none, "manual", 3, 4⟩ ∧
    DatabaseEncrypted.get_token 0 [⟨"bob", ⟨1, "tok", true⟩, "manual", 3, 4⟩] "bob" =
      none ∧
    DatabaseEncrypted.get_token 0 [] "bob" = none) :=
  ⟨by decide,
   C5_amended_decrypt_failure_conflated 0 ⟨1, "tok", true⟩ "bob" "manual" 3 4
     (by decide)⟩
